import Mathlib

set_option maxHeartbeats 1000000

/-!
Verification development for the agent-twitter-client core: the cursor-driven
pagination iterator, the session / cookie state of the Scraper, the chunked
media-upload protocol, and the tweet lookup and predicate-query helpers.
Each definition is a shallow embedding of the corresponding TypeScript
function; network effects are abstracted as pure environment functions.
-/

/-- Projection of the Tweet interface (tweets.ts): the identifier and the
fields used by query predicates. Optional fields stay optional, as in the
source, where `id?: string` may be undefined. -/
structure TweetM where
  id : Option String
  text : Option String
  isRetweet : Option Bool
deriving DecidableEq

/-- One page of user tweets as returned by Scraper.getUserTweets
(scraper.ts): the parsed tweets plus the optional next cursor. -/
structure Page where
  tweets : List TweetM
  next : Option String
deriving DecidableEq

/-- Embedding of Scraper.getUserTweetsIterator (scraper.ts, lines 378-406).
The generator keeps a cursor and a count of retrieved tweets; while the
count is below maxTweets it fetches a page sized maxTweets - retrieved at
the current cursor, yields the page's tweets one by one (breaking once the
count reaches maxTweets), then advances to the page's next cursor and stops
when that cursor is absent or the empty string (both falsy in the source).
The page fetch is abstracted as the pure function fetch; fuel bounds the
number of loop iterations, and the result none means the fuel ran out
before the loop exited. The value is the list of yielded tweets together
with the number of page fetches issued. -/
def getUserTweetsIterator (fetch : Nat → Option String → Page) (maxTweets : Nat) :
    Nat → Option String → Nat → Option (List TweetM × Nat)
  | 0, _, _ => none
  | fuel + 1, cursor, retrieved =>
    if retrieved < maxTweets then
      match (fetch (maxTweets - retrieved) cursor).next with
      | none =>
        some ((fetch (maxTweets - retrieved) cursor).tweets.take (maxTweets - retrieved), 1)
      | some c =>
        if c = "" then
          some ((fetch (maxTweets - retrieved) cursor).tweets.take (maxTweets - retrieved), 1)
        else
          match getUserTweetsIterator fetch maxTweets fuel (some c)
              (retrieved + ((fetch (maxTweets - retrieved) cursor).tweets.take
                (maxTweets - retrieved)).length) with
          | none => none
          | some (rest, n) =>
            some ((fetch (maxTweets - retrieved) cursor).tweets.take
              (maxTweets - retrieved) ++ rest, n + 1)
    else some ([], 0)

theorem getUserTweetsIterator_length_le
    (fetch : Nat → Option String → Page) (cap : Nat) :
    ∀ fuel cursor retrieved out,
      getUserTweetsIterator fetch cap fuel cursor retrieved = some out →
      out.1.length ≤ cap - retrieved := by
  intro fuel
  induction fuel with
  | zero =>
    intro cursor retrieved out h
    simp [getUserTweetsIterator] at h
  | succ n ih =>
    intro cursor retrieved out h
    rw [getUserTweetsIterator] at h
    split at h
    · split at h
      · cases h
        simp [List.length_take]
      · split at h
        · cases h
          simp [List.length_take]
        · split at h
          · exact absurd h (by simp)
          · rename_i hlt c hc rest m heq
            cases h
            have hr := ih _ _ _ heq
            simp only [List.length_append, List.length_take] at hr ⊢
            omega
    · cases h
      simp

theorem getUserTweetsIterator_terminates
    (fetch : Nat → Option String → Page) (cap : Nat) (depth : Option String → Nat)
    (hdesc : ∀ count cur c, (fetch count cur).next = some c → c ≠ "" →
      depth (some c) < depth cur) :
    ∀ fuel cursor retrieved, depth cursor < fuel →
      (getUserTweetsIterator fetch cap fuel cursor retrieved).isSome := by
  intro fuel
  induction fuel with
  | zero =>
    intro cursor retrieved h
    omega
  | succ n ih =>
    intro cursor retrieved hfuel
    rw [getUserTweetsIterator]
    by_cases hlt : retrieved < cap
    · simp only [if_pos hlt]
      cases hnext : (fetch (cap - retrieved) cursor).next with
      | none => simp
      | some c =>
        by_cases hc : c = ""
        · simp [hc]
        · simp only [if_neg hc]
          have hlt2 : depth (some c) < n := by
            have := hdesc (cap - retrieved) cursor c hnext hc
            omega
          have hrs := ih (some c)
            (retrieved + ((fetch (cap - retrieved) cursor).tweets.take (cap - retrieved)).length) hlt2
          cases hrec : getUserTweetsIterator fetch cap n (some c)
              (retrieved + ((fetch (cap - retrieved) cursor).tweets.take (cap - retrieved)).length) with
          | none => rw [hrec] at hrs; simp at hrs
          | some out' => simp [hrec]
    · simp [if_neg hlt]

/-- C3: for every cap and every page-fetch function that, after finitely
many pages (witnessed by a strictly decreasing depth measure on cursors),
returns an absent or empty nextCursor, the iterator terminates and yields
at most cap items; for cap = 0 it yields no items and issues no fetch. -/
theorem pagination_terminates_and_capped
    (fetch : Nat → Option String → Page) (cap : Nat) (depth : Option String → Nat)
    (hdesc : ∀ count cur c, (fetch count cur).next = some c → c ≠ "" →
      depth (some c) < depth cur) :
    (∃ items n, getUserTweetsIterator fetch cap (depth none + 1) none 0 = some (items, n) ∧
      items.length ≤ cap) ∧
    (∀ fuel, getUserTweetsIterator fetch 0 (fuel + 1) none 0 = some ([], 0)) := by
  constructor
  · have hsome := getUserTweetsIterator_terminates fetch cap depth hdesc
      (depth none + 1) none 0 (by omega)
    cases hout : getUserTweetsIterator fetch cap (depth none + 1) none 0 with
    | none => rw [hout] at hsome; simp at hsome
    | some out =>
      obtain ⟨items, m⟩ := out
      refine ⟨items, m, rfl, ?_⟩
      have := getUserTweetsIterator_length_le fetch cap (depth none + 1) none 0 (items, m) hout
      simpa using this
  · intro fuel
    rw [getUserTweetsIterator]
    simp

/-- Two-page fetch environment: the initial fetch (cursor undefined) returns
the first page with next cursor c, and any fetch at a concrete cursor
returns the second page with no next cursor. -/
def fetchTwoPages (p1 : List TweetM) (c : String) (p2 : List TweetM) :
    Nat → Option String → Page :=
  fun _ cursor =>
    match cursor with
    | none => { tweets := p1, next := some c }
    | some _ => { tweets := p2, next := none }

theorem c3_witness :
    (∃ items n,
      getUserTweetsIterator
        (fetchTwoPages [{ id := some "1", text := none, isRetweet := none }] "c"
          [{ id := some "2", text := none, isRetweet := none }]) 5 2 none 0 = some (items, n) ∧
      items.length ≤ 5) ∧
    (∀ fuel,
      getUserTweetsIterator
        (fetchTwoPages [{ id := some "1", text := none, isRetweet := none }] "c"
          [{ id := some "2", text := none, isRetweet := none }]) 0 (fuel + 1) none 0
        = some ([], 0)) := by
  exact pagination_terminates_and_capped
    (fetchTwoPages [{ id := some "1", text := none, isRetweet := none }] "c"
      [{ id := some "2", text := none, isRetweet := none }]) 5
    (fun cur => match cur with | none => 1 | some _ => 0)
    (by
      intro count cur c' hnext hc'
      cases cur with
      | none => simp [fetchTwoPages] at hnext ⊢
      | some x => simp [fetchTwoPages] at hnext)

def tA : TweetM := { id := some "a", text := none, isRetweet := none }

def tB : TweetM := { id := some "b", text := none, isRetweet := none }

/-- C4 counterexample: two consecutive pages share the boundary tweet tA
(page one is [tA] with next cursor "c"; page two is [tA, tB]); with cap 3
the iterator emits tA twice, not once, because it keeps no set of
already-emitted identifiers. -/
theorem pagination_dedup_counterexample :
    getUserTweetsIterator (fetchTwoPages [tA] "c" [tA, tB]) 3 5 none 0
      = some ([tA, tA, tB], 2) ∧
    [tA, tA, tB].countP (fun t => t.id == some "a") ≠ 1 := by decide

/-- C4 amended: the iterator maintains no set of emitted identifiers; over
a run of two consecutive pages (the second reached through the non-empty
cursor c) it emits the concatenation of the two pages verbatim, so an item
repeated on the page boundary is emitted once per occurrence. -/
theorem pagination_no_dedup
    (p1 p2 : List TweetM) (c : String) (cap : Nat)
    (hc : c ≠ "") (h1 : p1.length < cap) (h12 : p1.length + p2.length ≤ cap) :
    getUserTweetsIterator (fetchTwoPages p1 c p2) cap 2 none 0 = some (p1 ++ p2, 2) := by
  have hcap : 0 < cap := by omega
  have htake1 : p1.take (cap - 0) = p1 := List.take_of_length_le (by omega)
  rw [getUserTweetsIterator]
  simp only [if_pos hcap, fetchTwoPages, htake1, if_neg hc]
  rw [getUserTweetsIterator]
  have hlt2 : 0 + p1.length < cap := by omega
  simp only [if_pos hlt2, fetchTwoPages]
  have htake2 : p2.take (cap - (0 + p1.length)) = p2 := List.take_of_length_le (by omega)
  simp [htake2]
  omega

theorem pagination_no_dedup_witness :
    getUserTweetsIterator (fetchTwoPages [tA] "c" [tA, tB]) 4 2 none 0
      = some ([tA] ++ [tA, tB], 2) :=
  pagination_no_dedup [tA] [tA, tB] "c" 4 (by decide) (by decide) (by decide)

/-- Fetch environment that always returns the same single-item page with
the same non-empty next cursor, regardless of the requested count and of
the cursor it is given. -/
def fetchStall (t : TweetM) (c : String) : Nat → Option String → Page :=
  fun _ _ => { tweets := [t], next := some c }

theorem fetchStall_run (t : TweetM) (c : String) (hc : c ≠ "") (cap : Nat) :
    ∀ fuel cursor retrieved, retrieved < cap → cap - retrieved < fuel →
      getUserTweetsIterator (fetchStall t c) cap fuel cursor retrieved
        = some (List.replicate (cap - retrieved) t, cap - retrieved) := by
  intro fuel
  induction fuel with
  | zero =>
    intro cursor retrieved hr hf
    omega
  | succ n ih =>
    intro cursor retrieved hr hf
    rw [getUserTweetsIterator]
    have htake : ([t].take (cap - retrieved)) = [t] :=
      List.take_of_length_le (by simp; omega)
    simp only [if_pos hr, fetchStall, htake, if_neg hc, List.length_singleton]
    by_cases hr2 : retrieved + 1 < cap
    · have hrec := ih (some c) (retrieved + 1) hr2 (by omega)
      rw [hrec]
      have hrepl : t :: List.replicate (cap - (retrieved + 1)) t
          = List.replicate (cap - retrieved) t := by
        have : cap - retrieved = (cap - (retrieved + 1)) + 1 := by omega
        rw [this, List.replicate_succ]
      have hcount : cap - (retrieved + 1) + 1 = cap - retrieved := by omega
      simp [hrepl, hcount]
    · have heq : retrieved + 1 = cap := by omega
      cases n with
      | zero => omega
      | succ m =>
        rw [getUserTweetsIterator]
        have : ¬ retrieved + 1 < cap := hr2
        simp only [if_neg this]
        have hone : cap - retrieved = 1 := by omega
        simp [hone]

/-- C5 counterexample: a fetch function that returns the same non-empty
cursor "c" on every page (each page non-empty) does not make the iterator
stop after the second page: with cap 10 it keeps fetching until the cap,
issuing 10 page fetches, far more than two. -/
theorem pagination_stall_counterexample :
    getUserTweetsIterator (fetchStall tA "c") 10 12 none 0
      = some (List.replicate 10 tA, 10) ∧ ¬ ((10 : Nat) ≤ 2) := by
  constructor
  · have h := fetchStall_run tA "c" (by decide) 10 12 none 0 (by omega) (by omega)
    simpa using h
  · omega

/-- C5 amended: the iterator performs no stall detection on repeated
cursors; with a fetch function that always returns the same non-empty
cursor and a one-item page, it keeps issuing fetches until the cap is
reached, yielding exactly cap items by exactly cap page fetches (so for any
cap at least 3 a third fetch is issued); termination comes from the cap
alone, not from comparing cursors. -/
theorem pagination_no_stall_detection
    (t : TweetM) (c : String) (hc : c ≠ "") (cap : Nat) (hcap : 1 ≤ cap) :
    getUserTweetsIterator (fetchStall t c) cap (cap + 2) none 0
      = some (List.replicate cap t, cap) := by
  have h := fetchStall_run t c hc cap (cap + 2) none 0 (by omega) (by omega)
  simpa using h

theorem pagination_no_stall_detection_witness :
    getUserTweetsIterator (fetchStall tB "k") 3 5 none 0
      = some (List.replicate 3 tB, 3) :=
  pagination_no_stall_detection tB "k" (by decide) 3 (by omega)

/-- Modelled from the spec: a cookie record at the cookie serialization
boundary, keyed by (domain, path, name) with a value (attribute flags are
omitted as they play no role in the round-trip property). The Cookie class
itself comes from the external tough-cookie package. -/
structure Cookie where
  domain : String
  path : String
  name : String
  value : String
deriving DecidableEq

/-- Key of a cookie in the cookie store: (domain, path, name). -/
def cookieKey (c : Cookie) : String × String × String :=
  (c.domain, c.path, c.name)

/-- Modelled from the spec: CookieJar.setCookie of the external tough-cookie
store used by TwitterGuestAuth / TwitterUserAuth (auth.ts, auth-user.ts, not
under src/). The store maps (domain, path, name) to a value: setting a
cookie whose key already exists replaces that record in place, otherwise
the record is appended, preserving insertion order. -/
def setCookieInJar (jar : List Cookie) (c : Cookie) : List Cookie :=
  if jar.any (fun c0 => cookieKey c0 == cookieKey c) then
    jar.map (fun c0 => if cookieKey c0 == cookieKey c then c else c0)
  else jar ++ [c]

/-- Modelled from the spec: the state of a TwitterUserAuth object
(auth-user.ts, not under src/) — the bearer token it was constructed with
and its cookie jar. -/
structure UserAuthSt where
  token : String
  jar : List Cookie
deriving DecidableEq

/-- Modelled from the spec: the state of a TwitterGuestAuth object
(auth.ts, not under src/) — the bearer token and its cookie jar. -/
structure GuestSt where
  token : String
  jar : List Cookie
deriving DecidableEq

/-- An authorizer held by the Scraper: either the Guest variant or the
Authenticated-user variant of the Session data model. -/
inductive AuthObj
  | guestA (g : GuestSt)
  | userA (u : UserAuthSt)
deriving DecidableEq

/-- Cookie jar of an authorizer (cookieJar() in the source). -/
def AuthObj.jar : AuthObj → List Cookie
  | .guestA g => g.jar
  | .userA u => u.jar

/-- Modelled from the spec: isLoggedIn of an authorizer (auth.ts /
auth-user.ts, not under src/): a pure query, true only in the
Authenticated variant. -/
def AuthObj.isLoggedIn : AuthObj → Bool
  | .guestA _ => false
  | .userA _ => true

/-- State of a Scraper object (scraper.ts): the bearer token and the two
authorizer fields auth and authTrends. -/
structure ScraperState where
  token : String
  auth : AuthObj
  authTrends : AuthObj
deriving DecidableEq

/-- Embedding of the Scraper constructor together with useGuestAuth
(scraper.ts, lines 114-127): both authorizers start as fresh guest
authorizers built from the bearer token. -/
def mkScraper (token : String) : ScraperState :=
  { token := token
    auth := .guestA { token := token, jar := [] }
    authTrends := .guestA { token := token, jar := [] } }

/-- Embedding of Scraper.getCookies (scraper.ts, lines 666-672): returns
the cookies of the authTrends authorizer's jar. -/
def getCookies (s : ScraperState) : List Cookie :=
  s.authTrends.jar

/-- Embedding of Scraper.setCookies (scraper.ts, lines 678-686): builds a
fresh TwitterUserAuth from the stored bearer token, sets each given cookie
into its jar in order, and installs it as both auth and authTrends. -/
def setCookies (s : ScraperState) (cookies : List Cookie) : ScraperState :=
  { s with
    auth := .userA { token := s.token, jar := cookies.foldl setCookieInJar [] }
    authTrends := .userA { token := s.token, jar := cookies.foldl setCookieInJar [] } }

/-- Embedding of Scraper.isLoggedIn (scraper.ts, lines 624-628): true when
both the auth and authTrends authorizers report logged in. -/
def isLoggedIn (s : ScraperState) : Bool :=
  s.auth.isLoggedIn && s.authTrends.isLoggedIn

theorem setCookieInJar_foldl_fresh :
    ∀ (cs acc : List Cookie), (((acc ++ cs).map cookieKey)).Nodup →
      cs.foldl setCookieInJar acc = acc ++ cs := by
  intro cs
  induction cs with
  | nil =>
    intro acc h
    simp
  | cons c rest ih =>
    intro acc h
    have hnotin : ¬ (cookieKey c ∈ acc.map cookieKey) := by
      rw [List.map_append, List.nodup_append] at h
      intro hmem
      exact h.2.2 hmem (by simp)
    have hany : acc.any (fun c0 => cookieKey c0 == cookieKey c) = false := by
      rw [List.any_eq_false]
      intro c0 hc0
      simp only [beq_iff_eq]
      intro hkey
      exact hnotin (by rw [← hkey]; exact List.mem_map_of_mem cookieKey hc0)
    have hstep : setCookieInJar acc c = acc ++ [c] := by
      rw [setCookieInJar, hany]
      simp
    rw [List.foldl_cons, hstep, ih (acc ++ [c]) (by simpa using h)]
    simp

/-- C2: cookie round-trip. Exporting a session's cookies and importing
that sequence into the same scraper via setCookies (which builds a fresh
user authorizer) yields a session that reports logged in — the import
promotes the session to the Authenticated variant without running the
login flow — and whose exported cookie set equals the imported one. The
hypothesis that exported keys are distinct is an invariant of the store,
which maps each (domain, path, name) key to one record. -/
theorem cookie_roundtrip (s : ScraperState)
    (hnodup : ((getCookies s).map cookieKey).Nodup) :
    isLoggedIn (setCookies s (getCookies s)) = true ∧
    getCookies (setCookies s (getCookies s)) = getCookies s := by
  constructor
  · rfl
  · show (getCookies s).foldl setCookieInJar [] = getCookies s
    have := setCookieInJar_foldl_fresh (getCookies s) [] (by simpa using hnodup)
    simpa using this

def cookieExA : Cookie :=
  { domain := "twitter.com", path := "/", name := "auth_token", value := "v1" }

def cookieExB : Cookie :=
  { domain := "twitter.com", path := "/", name := "ct0", value := "v2" }

def scraperEx : ScraperState :=
  { token := "bearer"
    auth := .userA { token := "bearer", jar := [cookieExA, cookieExB] }
    authTrends := .userA { token := "bearer", jar := [cookieExA, cookieExB] } }

theorem cookie_roundtrip_witness :
    isLoggedIn (setCookies scraperEx (getCookies scraperEx)) = true ∧
    getCookies (setCookies scraperEx (getCookies scraperEx)) = getCookies scraperEx :=
  cookie_roundtrip scraperEx (by decide)

/-- Credentials passed to Scraper.login (scraper.ts, lines 638-643):
username, password, optional email and optional two-factor secret. -/
structure Credentials where
  username : String
  password : String
  email : Option String
  twoFactorSecret : Option String
deriving DecidableEq

/-- Modelled from the spec: one server-directed subtask of the login
negotiation run by TwitterUserAuth.login (auth-user.ts, not under src/).
The server chooses the next required step at each round; steps the client
does not recognize are carried with their name. -/
inductive Subtask
  | loginJsInstrumentation
  | loginEnterUserIdentifier
  | loginEnterPassword
  | loginEnterAlternateIdentifier
  | loginTwoFactorAuthChallenge
  | loginAcid
  | loginSuccess
  | denyLogin
  | other (name : String)
deriving DecidableEq

/-- LoginError of the spec's error taxonomy: the server-reported reason a
credential negotiation failed. -/
inductive LoginError
  | badCredentials
  | missingVerificationInput (what : String)
  | unexpectedSubtask (name : String)
  | incompleteFlow
deriving DecidableEq

/-- Modelled from the spec: TwitterUserAuth.login (auth-user.ts, not under
src/) runs the server-directed negotiation: at each round the server names
the next subtask; known subtasks are answered from the credentials,
denyLogin reports bad credentials, a subtask requiring a missing optional
input fails, an unrecognized subtask fails with its name, and loginSuccess
completes with the authenticated user-auth state. -/
def runLoginFlow (creds : Credentials) (ua : UserAuthSt) :
    List Subtask → Except LoginError UserAuthSt
  | [] => .error .incompleteFlow
  | st :: rest =>
    match st with
    | .loginSuccess => .ok ua
    | .denyLogin => .error .badCredentials
    | .loginJsInstrumentation => runLoginFlow creds ua rest
    | .loginEnterUserIdentifier => runLoginFlow creds ua rest
    | .loginEnterPassword => runLoginFlow creds ua rest
    | .loginEnterAlternateIdentifier =>
      match creds.email with
      | some _ => runLoginFlow creds ua rest
      | none => .error (.missingVerificationInput "email")
    | .loginAcid =>
      match creds.email with
      | some _ => runLoginFlow creds ua rest
      | none => .error (.missingVerificationInput "email")
    | .loginTwoFactorAuthChallenge =>
      match creds.twoFactorSecret with
      | some _ => runLoginFlow creds ua rest
      | none => .error (.missingVerificationInput "twoFactorSecret")
    | .other name => .error (.unexpectedSubtask name)

/-- The fresh TwitterUserAuth object constructed at the top of
Scraper.login from the scraper's stored bearer token (scraper.ts,
line 645): it starts with an empty cookie jar. -/
def mkUserAuth (token : String) : UserAuthSt :=
  { token := token, jar := [] }

/-- Embedding of Scraper.login (scraper.ts, lines 638-649): construct a
fresh TwitterUserAuth from the stored token, run its login negotiation
(the server's subtask sequence is the flow argument), and only on success
install the user authorizer into both auth fields; when the negotiation
throws, the exception propagates and the scraper state is left as it was. -/
def login (s : ScraperState) (creds : Credentials) (flow : List Subtask) :
    Except LoginError Unit × ScraperState :=
  match runLoginFlow creds (mkUserAuth s.token) flow with
  | .error e => (.error e, s)
  | .ok ua => (.ok (), { s with auth := .userA ua, authTrends := .userA ua })

/-- C1: a failed login leaves the Scraper's session state unchanged — the
prior Guest or Authenticated identity is still in place and the error is
surfaced — and a subsequent login call behaves exactly as a login from the
pre-call state, since each call starts the negotiation from a freshly
constructed user-auth object built from the stored bearer token. -/
theorem login_failure_preserves_state
    (s : ScraperState) (creds : Credentials) (flow : List Subtask) (e : LoginError)
    (hfail : runLoginFlow creds (mkUserAuth s.token) flow = .error e) :
    (login s creds flow).2 = s ∧
    (login s creds flow).1 = .error e ∧
    (login s creds flow).2.auth = s.auth ∧
    (login s creds flow).2.authTrends = s.authTrends ∧
    ∀ creds2 flow2, login (login s creds flow).2 creds2 flow2 = login s creds2 flow2 := by
  have hl : login s creds flow = (.error e, s) := by
    rw [login, hfail]
  rw [hl]
  exact ⟨rfl, rfl, rfl, rfl, fun _ _ => rfl⟩

def credsEx : Credentials :=
  { username := "user", password := "pw", email := none, twoFactorSecret := none }

/-- A negotiation in which the server answers the first submitted input
with a subtask the client does not recognize. -/
def flowEx : List Subtask :=
  [.loginJsInstrumentation, .loginEnterUserIdentifier, .other "LoginTwoFactorAuthChooseMethod"]

theorem login_failure_preserves_state_witness :
    (login (mkScraper "bearer") credsEx flowEx).2 = mkScraper "bearer" ∧
    (login (mkScraper "bearer") credsEx flowEx).1
      = .error (.unexpectedSubtask "LoginTwoFactorAuthChooseMethod") ∧
    (login (mkScraper "bearer") credsEx flowEx).2.auth = (mkScraper "bearer").auth ∧
    (login (mkScraper "bearer") credsEx flowEx).2.authTrends = (mkScraper "bearer").authTrends ∧
    ∀ creds2 flow2,
      login (login (mkScraper "bearer") credsEx flowEx).2 creds2 flow2
        = login (mkScraper "bearer") creds2 flow2 :=
  login_failure_preserves_state (mkScraper "bearer") credsEx flowEx
    (.unexpectedSubtask "LoginTwoFactorAuthChooseMethod") rfl

/-- Processing descriptor of a media upload response (processing_info in
the MediaUploadResponse interface, scraper.ts lines 68-74). -/
structure ProcessingInfo where
  state : String
  check_after_secs : Option Nat
deriving DecidableEq

/-- MediaUploadResponse (scraper.ts lines 68-74): the media id assigned at
INIT time and the optional processing descriptor. -/
structure MediaUploadResponse where
  media_id_string : Option String
  processing_info : Option ProcessingInfo
deriving DecidableEq

/-- One request issued by uploadMedia against the media upload endpoint,
identified by its command and, for APPEND, its segment index. -/
inductive UploadReq
  | initCmd (totalBytes : Nat) (mediaType : String) (mediaCategory : String)
  | appendCmd (segmentIndex : Nat)
  | finalizeCmd
  | statusCmd
deriving DecidableEq

/-- Errors thrown by uploadMedia / checkMediaProcessingStatus
(scraper.ts lines 738-880); appendFailed carries the 1-based chunk number
and the total chunk count exactly as the thrown message does. -/
inductive UploadErr
  | initFailed
  | appendFailed (chunkNum : Nat) (totalChunks : Nat)
  | finalizeFailed
  | statusCheckFailed
  | processingFailed
  | processingTimedOut
deriving DecidableEq

/-- Environment of server responses for one uploadMedia call: the INIT
response, the per-segment APPEND outcome, the FINALIZE response and the
per-attempt STATUS response; none models a failed (non-success) request. -/
structure UploadEnv where
  initResp : Option MediaUploadResponse
  appendOk : Nat → Bool
  finalizeResp : Option MediaUploadResponse
  statusResp : Nat → Option MediaUploadResponse

/-- Outcome of the status-polling loop. -/
inductive PollOutcome
  | done (r : MediaUploadResponse)
  | failedProcessing
  | timedOut
  | transportFailed
deriving DecidableEq

/-- The wait in seconds computed by the source expression
processingInfo.check_after_secs || 5 (scraper.ts line 874): the logical-or
takes the default not only when check_after_secs is absent but also when
it is 0, since 0 is falsy in the host language. -/
def checkAfterOrDefault (secs : Option Nat) : Nat :=
  match secs with
  | none => 5
  | some s => if s = 0 then 5 else s

/-- Embedding of the body of checkMediaProcessingStatus (scraper.ts lines
844-880) from a given attempt index with a given number of attempts left:
returns the number of STATUS requests issued, the list of waits (in
milliseconds) performed between polls, and the outcome. A poll whose
response lacks a processing descriptor or reports state succeeded returns
it; state failed aborts; otherwise the loop waits
(check_after_secs || 5) seconds and polls again. -/
def pollFrom (statusResp : Nat → Option MediaUploadResponse) :
    Nat → Nat → Nat × List Nat × PollOutcome
  | _, 0 => (0, [], .timedOut)
  | attempts, remaining + 1 =>
    match statusResp attempts with
    | none => (1, [], .transportFailed)
    | some r =>
      match r.processing_info with
      | none => (1, [], .done r)
      | some pi =>
        if pi.state = "succeeded" then (1, [], .done r)
        else if pi.state = "failed" then (1, [], .failedProcessing)
        else
          ((pollFrom statusResp (attempts + 1) remaining).1 + 1,
           checkAfterOrDefault pi.check_after_secs * 1000
             :: (pollFrom statusResp (attempts + 1) remaining).2.1,
           (pollFrom statusResp (attempts + 1) remaining).2.2)

/-- Embedding of checkMediaProcessingStatus (scraper.ts lines 844-880):
the loop starts at attempt 0 with maxAttempts = 10. -/
def checkMediaProcessingStatus (statusResp : Nat → Option MediaUploadResponse) :
    Nat × List Nat × PollOutcome :=
  pollFrom statusResp 0 10

/-- The wait the loop performs after the poll at a given attempt index,
when that poll neither terminates the loop nor fails: the falsy-or of
check_after_secs of its response with 5, in milliseconds. -/
def waitOf (statusResp : Nat → Option MediaUploadResponse) (i : Nat) : Nat :=
  match statusResp i with
  | none => 0
  | some r =>
    match r.processing_info with
    | none => 0
    | some pi => checkAfterOrDefault pi.check_after_secs * 1000

/-- The APPEND phase (scraper.ts lines 776-805) from segment index i with
the given number of chunks left: issues APPEND requests with increasing
segment indices, each awaited before the next; a failed append stops the
phase and reports its index. -/
def appendPhase (appendOk : Nat → Bool) : Nat → Nat → List UploadReq × Option Nat
  | _, 0 => ([], none)
  | i, remaining + 1 =>
    if appendOk i then
      ((UploadReq.appendCmd i) :: (appendPhase appendOk (i + 1) remaining).1,
       (appendPhase appendOk (i + 1) remaining).2)
    else ([UploadReq.appendCmd i], some i)

/-- Chunk size used for video uploads (scraper.ts line 773): 5 MiB. -/
def CHUNK_SIZE : Nat := 5 * 1024 * 1024

/-- The FINALIZE and STATUS tail of uploadMedia (scraper.ts lines
807-840): the FINALIZE request has just been appended to the trace; a
failed finalize is terminal; for a video whose finalize response carries a
processing descriptor the status poll loop runs, its STATUS requests
appended to the trace; otherwise the finalize response is returned. -/
def finalizePhase (env : UploadEnv) (isVideo : Bool) (trace2 : List UploadReq) :
    List UploadReq × Except UploadErr MediaUploadResponse :=
  match env.finalizeResp with
  | none => (trace2, .error .finalizeFailed)
  | some fr =>
    if isVideo && fr.processing_info.isSome then
      (trace2 ++ List.replicate (checkMediaProcessingStatus env.statusResp).1
          UploadReq.statusCmd,
       match (checkMediaProcessingStatus env.statusResp).2.2 with
       | .done r => .ok r
       | .failedProcessing => .error .processingFailed
       | .timedOut => .error .processingTimedOut
       | .transportFailed => .error .statusCheckFailed)
    else (trace2, .ok fr)

/-- The APPEND phase of uploadMedia followed by its finalize/status tail
(scraper.ts lines 771-840): if every chunk appends, FINALIZE is issued and
the finalize phase runs; the first failed chunk i aborts with an error
naming chunk i+1 of the chunk count. -/
def appendAndFinish (env : UploadEnv) (isVideo : Bool) (initTrace : List UploadReq)
    (chunks : Nat) : List UploadReq × Except UploadErr MediaUploadResponse :=
  let ap := appendPhase env.appendOk 0 chunks
  match ap.2 with
  | some i => (initTrace ++ ap.1, .error (.appendFailed (i + 1) chunks))
  | none => finalizePhase env isVideo (initTrace ++ ap.1 ++ [UploadReq.finalizeCmd])

/-- Embedding of Scraper.uploadMedia (scraper.ts lines 738-841). Issues
INIT; on success splits the payload into ceil(totalBytes / 5 MiB) chunks
for video and a single chunk otherwise, issuing APPEND requests strictly
in segment-index order, each awaited before the next; then one FINALIZE
followed by the status tail. Returns the request trace and the result. -/
def uploadMedia (env : UploadEnv) (totalBytes : Nat) (mediaType : String) :
    List UploadReq × Except UploadErr MediaUploadResponse :=
  let isVideo := mediaType == "video/mp4"
  let mediaCategory := if isVideo then "tweet_video" else "tweet_image"
  let initTrace := [UploadReq.initCmd totalBytes mediaType mediaCategory]
  match env.initResp with
  | none => (initTrace, .error .initFailed)
  | some ir =>
    match ir.media_id_string with
    | none => (initTrace, .error .initFailed)
    | some mid =>
      if mid = "" then (initTrace, .error .initFailed)
      else
        appendAndFinish env isVideo initTrace
          (if isVideo then (totalBytes + CHUNK_SIZE - 1) / CHUNK_SIZE else 1)

theorem appendPhase_all_ok (appendOk : Nat → Bool) (hok : ∀ k, appendOk k = true) :
    ∀ remaining i, appendPhase appendOk i remaining
      = ((List.range' i remaining).map UploadReq.appendCmd, none) := by
  intro remaining
  induction remaining with
  | zero =>
    intro i
    simp [appendPhase]
  | succ m ih =>
    intro i
    rw [appendPhase]
    simp [hok i, ih (i + 1), List.range'_succ]

theorem appendPhase_first_fail (appendOk : Nat → Bool) :
    ∀ remaining i j, i ≤ j → j < i + remaining →
      (∀ k, i ≤ k → k < j → appendOk k = true) → appendOk j = false →
      appendPhase appendOk i remaining
        = ((List.range' i (j - i + 1)).map UploadReq.appendCmd, some j) := by
  intro remaining
  induction remaining with
  | zero =>
    intro i j hij hlt hpre hfail
    omega
  | succ m ih =>
    intro i j hij hlt hpre hfail
    rw [appendPhase]
    by_cases hieq : i = j
    · subst hieq
      simp [hfail, List.range'_succ]
    · have hi : appendOk i = true := hpre i (by omega) (by omega)
      have hrec := ih (i + 1) j (by omega) (by omega)
        (fun k hk1 hk2 => hpre k (by omega) hk2) hfail
      have hcount : j - i + 1 = (j - (i + 1) + 1) + 1 := by omega
      simp only [hi, if_pos, hrec, hcount, List.range'_succ]
      simp

theorem pollFrom_count_le (statusResp : Nat → Option MediaUploadResponse) :
    ∀ remaining attempts, (pollFrom statusResp attempts remaining).1 ≤ remaining := by
  intro remaining
  induction remaining with
  | zero =>
    intro attempts
    simp [pollFrom]
  | succ m ih =>
    intro attempts
    rw [pollFrom]
    cases hs : statusResp attempts with
    | none => simp
    | some r =>
      cases hpi : r.processing_info with
      | none => simp [hpi]
      | some pi =>
        simp only [hpi]
        by_cases hsu : pi.state = "succeeded"
        · simp [hsu]
        · by_cases hfa : pi.state = "failed"
          · simp [hsu, hfa]
          · have := ih (attempts + 1)
            simp only [if_neg hsu, if_neg hfa]
            simp
            omega

theorem pollFrom_waits (statusResp : Nat → Option MediaUploadResponse) :
    ∀ remaining attempts,
      (pollFrom statusResp attempts remaining).2.1
        = (List.range' attempts (pollFrom statusResp attempts remaining).2.1.length).map
            (waitOf statusResp) := by
  intro remaining
  induction remaining with
  | zero =>
    intro attempts
    simp [pollFrom]
  | succ m ih =>
    intro attempts
    rw [pollFrom]
    cases hs : statusResp attempts with
    | none => simp
    | some r =>
      cases hpi : r.processing_info with
      | none => simp [hpi]
      | some pi =>
        simp only [hpi]
        by_cases hsu : pi.state = "succeeded"
        · simp [hsu]
        · by_cases hfa : pi.state = "failed"
          · simp [hsu, hfa]
          · simp only [if_neg hsu, if_neg hfa, List.length_cons, List.range'_succ,
              List.map_cons]
            congr 1
            · simp [waitOf, hs, hpi]
            · exact ih (attempts + 1)

theorem pollFrom_no_transport_fail (statusResp : Nat → Option MediaUploadResponse) :
    ∀ remaining attempts,
      (∀ i, attempts ≤ i → i < attempts + remaining → statusResp i ≠ none) →
      (pollFrom statusResp attempts remaining).2.2 ≠ PollOutcome.transportFailed := by
  intro remaining
  induction remaining with
  | zero =>
    intro attempts h
    simp [pollFrom]
  | succ m ih =>
    intro attempts h
    rw [pollFrom]
    cases hs : statusResp attempts with
    | none => exact absurd hs (h attempts (by omega) (by omega))
    | some r =>
      cases hpi : r.processing_info with
      | none => simp [hpi]
      | some pi =>
        simp only [hpi]
        by_cases hsu : pi.state = "succeeded"
        · simp [hsu]
        · by_cases hfa : pi.state = "failed"
          · simp [hsu, hfa]
          · simp only [if_neg hsu, if_neg hfa]
            exact ih (attempts + 1) (fun i h1 h2 => h i (by omega) (by omega))

/-- C7 (amended): for every status environment the poll loop issues at
most 10 STATUS requests, the wait performed after each non-final poll
equals the falsy-or of the response's check_after_secs with 5 seconds —
5 seconds when the value is absent or zero, the suggested value otherwise
— in milliseconds, and — when every status request within the attempt
bound succeeds at the transport level — the loop terminates in exactly
one of three outcomes: the status response (processing succeeded or the
descriptor disappeared), the processing-failed error, or the timeout
error after the 10 attempts. -/
theorem media_processing_poll_bounded (statusResp : Nat → Option MediaUploadResponse) :
    (checkMediaProcessingStatus statusResp).1 ≤ 10 ∧
    (checkMediaProcessingStatus statusResp).2.1
      = (List.range (checkMediaProcessingStatus statusResp).2.1.length).map
          (waitOf statusResp) ∧
    ((∀ i, i < 10 → statusResp i ≠ none) →
      (∃ r, (checkMediaProcessingStatus statusResp).2.2 = PollOutcome.done r) ∨
      (checkMediaProcessingStatus statusResp).2.2 = PollOutcome.failedProcessing ∨
      (checkMediaProcessingStatus statusResp).2.2 = PollOutcome.timedOut) := by
  refine ⟨pollFrom_count_le statusResp 10 0, ?_, ?_⟩
  · have h := pollFrom_waits statusResp 10 0
    rw [checkMediaProcessingStatus]
    rw [h]
    simp [List.range_eq_range']
  · intro htr
    have hnt : (checkMediaProcessingStatus statusResp).2.2 ≠ PollOutcome.transportFailed :=
      pollFrom_no_transport_fail statusResp 10 0 (fun i h1 h2 => htr i (by omega))
    cases hout : (checkMediaProcessingStatus statusResp).2.2 with
    | done r => exact Or.inl ⟨r, rfl⟩
    | failedProcessing => exact Or.inr (Or.inl rfl)
    | timedOut => exact Or.inr (Or.inr rfl)
    | transportFailed => exact absurd hout hnt

def statusRespEx : Nat → Option MediaUploadResponse := fun i =>
  if i = 0 then
    some { media_id_string := some "m"
           processing_info := some { state := "in_progress", check_after_secs := some 8 } }
  else
    some { media_id_string := some "m"
           processing_info := some { state := "succeeded", check_after_secs := none } }

theorem media_processing_poll_bounded_witness :
    (checkMediaProcessingStatus statusRespEx).1 ≤ 10 ∧
    ((∃ r, (checkMediaProcessingStatus statusRespEx).2.2 = PollOutcome.done r) ∨
      (checkMediaProcessingStatus statusRespEx).2.2 = PollOutcome.failedProcessing ∨
      (checkMediaProcessingStatus statusRespEx).2.2 = PollOutcome.timedOut) :=
  ⟨(media_processing_poll_bounded statusRespEx).1,
   (media_processing_poll_bounded statusRespEx).2.2 (by decide)⟩

/-- Status environment whose first response suggests check_after_secs = 0
and whose second reports success. -/
def statusRespZero : Nat → Option MediaUploadResponse := fun i =>
  if i = 0 then
    some { media_id_string := some "m"
           processing_info := some { state := "in_progress", check_after_secs := some 0 } }
  else
    some { media_id_string := some "m"
           processing_info := some { state := "succeeded", check_after_secs := none } }

/-- C7 counterexample: when the server suggests check_after_secs = 0, the
loop's one wait is 5000 ms — the || 5 default fires on the falsy 0 — and
not the 0 ms the claim's server-suggested wait would be. -/
theorem media_processing_wait_zero_counterexample :
    (checkMediaProcessingStatus statusRespZero).2.1 = [5000] ∧
    ¬ (checkMediaProcessingStatus statusRespZero).2.1 = [0 * 1000] := by decide

theorem finalizePhase_trace (env : UploadEnv) (isVideo : Bool) (trace2 : List UploadReq) :
    ∃ k, k ≤ 10 ∧
      (finalizePhase env isVideo trace2).1
        = trace2 ++ List.replicate k UploadReq.statusCmd := by
  rw [finalizePhase]
  cases env.finalizeResp with
  | none => exact ⟨0, by omega, by simp⟩
  | some fr =>
    dsimp only
    by_cases hb : (isVideo && fr.processing_info.isSome) = true
    · rw [if_pos hb]
      exact ⟨(checkMediaProcessingStatus env.statusResp).1,
        pollFrom_count_le env.statusResp 10 0, rfl⟩
    · rw [if_neg hb]
      exact ⟨0, by omega, by simp⟩

theorem finalizePhase_not_video (env : UploadEnv) (trace2 : List UploadReq)
    (fr : MediaUploadResponse) (hfr : env.finalizeResp = some fr) :
    finalizePhase env false trace2 = (trace2, .ok fr) := by
  rw [finalizePhase, hfr]
  simp

theorem uploadMedia_init_ok (env : UploadEnv) (n : Nat) (mediaType : String)
    (ir : MediaUploadResponse) (mid : String)
    (hi : env.initResp = some ir) (hm : ir.media_id_string = some mid) (hne : mid ≠ "") :
    uploadMedia env n mediaType
      = appendAndFinish env (mediaType == "video/mp4")
          [UploadReq.initCmd n mediaType
            (if (mediaType == "video/mp4") then "tweet_video" else "tweet_image")]
          (if (mediaType == "video/mp4") then (n + CHUNK_SIZE - 1) / CHUNK_SIZE else 1) := by
  rw [uploadMedia, hi]
  dsimp only
  rw [hm]
  dsimp only
  rw [if_neg hne]

theorem appendAndFinish_appends_ok (env : UploadEnv) (isVideo : Bool)
    (initTrace L : List UploadReq) (chunks : Nat)
    (hap : appendPhase env.appendOk 0 chunks = (L, none)) :
    appendAndFinish env isVideo initTrace chunks
      = finalizePhase env isVideo (initTrace ++ L ++ [UploadReq.finalizeCmd]) := by
  rw [appendAndFinish]
  simp only [hap]

theorem appendAndFinish_append_fail (env : UploadEnv) (isVideo : Bool)
    (initTrace L : List UploadReq) (chunks j : Nat)
    (hap : appendPhase env.appendOk 0 chunks = (L, some j)) :
    appendAndFinish env isVideo initTrace chunks
      = (initTrace ++ L, .error (.appendFailed (j + 1) chunks)) := by
  rw [appendAndFinish]
  simp only [hap]

theorem uploadMedia_video_appends_ok (env : UploadEnv) (n : Nat)
    (ir : MediaUploadResponse) (mid : String) (L : List UploadReq)
    (hi : env.initResp = some ir) (hm : ir.media_id_string = some mid) (hne : mid ≠ "")
    (hap : appendPhase env.appendOk 0 ((n + CHUNK_SIZE - 1) / CHUNK_SIZE) = (L, none)) :
    ∃ k, k ≤ 10 ∧
      (uploadMedia env n "video/mp4").1
        = UploadReq.initCmd n "video/mp4" "tweet_video"
          :: (L ++ [UploadReq.finalizeCmd] ++ List.replicate k UploadReq.statusCmd) := by
  have hvb : ("video/mp4" == "video/mp4") = true := by decide
  have hstep := uploadMedia_init_ok env n "video/mp4" ir mid hi hm hne
  rw [hvb] at hstep
  simp only [if_true] at hstep
  rw [hstep, appendAndFinish_appends_ok env true _ L _ hap]
  obtain ⟨k, hk, htr⟩ := finalizePhase_trace env true
    ([UploadReq.initCmd n "video/mp4" "tweet_video"] ++ L ++ [UploadReq.finalizeCmd])
  refine ⟨k, hk, ?_⟩
  rw [htr]
  simp

theorem uploadMedia_video_append_fail (env : UploadEnv) (n : Nat)
    (ir : MediaUploadResponse) (mid : String) (L : List UploadReq) (j : Nat)
    (hi : env.initResp = some ir) (hm : ir.media_id_string = some mid) (hne : mid ≠ "")
    (hap : appendPhase env.appendOk 0 ((n + CHUNK_SIZE - 1) / CHUNK_SIZE) = (L, some j)) :
    uploadMedia env n "video/mp4"
      = (UploadReq.initCmd n "video/mp4" "tweet_video" :: L,
         .error (.appendFailed (j + 1) ((n + CHUNK_SIZE - 1) / CHUNK_SIZE))) := by
  have hvb : ("video/mp4" == "video/mp4") = true := by decide
  have hstep := uploadMedia_init_ok env n "video/mp4" ir mid hi hm hne
  rw [hvb] at hstep
  simp only [if_true] at hstep
  rw [hstep, appendAndFinish_append_fail env true _ L _ j hap]
  simp

/-- C6: for a video of n bytes with INIT succeeding, uploadMedia issues
exactly ceil(n / 5 MiB) APPEND requests with segment indices 0, 1, 2, ...
strictly in order (each request awaited before the next is part of the
sequential trace semantics), followed by exactly one FINALIZE, and any
STATUS polls (at most 10) come only after the FINALIZE; while a failed
APPEND at chunk j terminates the upload right after that request — no
retry of the chunk, no FINALIZE, no STATUS — with an error identifying the
failing chunk as j+1 of the total chunk count. -/
theorem upload_video_ordering (env : UploadEnv) (n : Nat)
    (ir : MediaUploadResponse) (mid : String)
    (hi : env.initResp = some ir) (hm : ir.media_id_string = some mid) (hne : mid ≠ "") :
    ((∀ i, env.appendOk i = true) →
      ∃ k, k ≤ 10 ∧
        (uploadMedia env n "video/mp4").1
          = UploadReq.initCmd n "video/mp4" "tweet_video"
            :: ((List.range ((n + CHUNK_SIZE - 1) / CHUNK_SIZE)).map UploadReq.appendCmd
              ++ [UploadReq.finalizeCmd] ++ List.replicate k UploadReq.statusCmd)) ∧
    (∀ j, j < (n + CHUNK_SIZE - 1) / CHUNK_SIZE →
      (∀ i, i < j → env.appendOk i = true) → env.appendOk j = false →
      uploadMedia env n "video/mp4"
        = (UploadReq.initCmd n "video/mp4" "tweet_video"
            :: (List.range (j + 1)).map UploadReq.appendCmd,
           .error (.appendFailed (j + 1) ((n + CHUNK_SIZE - 1) / CHUNK_SIZE)))) := by
  constructor
  · intro hok
    have hap := appendPhase_all_ok env.appendOk hok ((n + CHUNK_SIZE - 1) / CHUNK_SIZE) 0
    rw [List.range_eq_range']
    exact uploadMedia_video_appends_ok env n ir mid _ hi hm hne hap
  · intro j hj hpre hfail
    have hap := appendPhase_first_fail env.appendOk ((n + CHUNK_SIZE - 1) / CHUNK_SIZE) 0 j
      (by omega) (by omega) (fun k hk1 hk2 => hpre k hk2) hfail
    rw [List.range_eq_range']
    have hap' : appendPhase env.appendOk 0 ((n + CHUNK_SIZE - 1) / CHUNK_SIZE)
        = ((List.range' 0 (j + 1)).map UploadReq.appendCmd, some j) := by
      rw [hap]
      simp
    exact uploadMedia_video_append_fail env n ir mid _ j hi hm hne hap'

def initRespEx : MediaUploadResponse :=
  { media_id_string := some "12345", processing_info := none }

def finalizeRespEx : MediaUploadResponse :=
  { media_id_string := some "12345"
    processing_info := some { state := "pending", check_after_secs := some 1 } }

/-- Upload environment for a 12 MiB video whose appends all succeed and
whose processing succeeds at the second status poll. -/
def uploadEnvOk : UploadEnv :=
  { initResp := some initRespEx
    appendOk := fun _ => true
    finalizeResp := some finalizeRespEx
    statusResp := statusRespEx }

/-- Upload environment whose APPEND of segment 1 fails. -/
def uploadEnvFail : UploadEnv :=
  { initResp := some initRespEx
    appendOk := fun i => decide (i < 1)
    finalizeResp := some finalizeRespEx
    statusResp := statusRespEx }

theorem upload_video_ordering_witness :
    (∃ k, k ≤ 10 ∧
      (uploadMedia uploadEnvOk 12582912 "video/mp4").1
        = UploadReq.initCmd 12582912 "video/mp4" "tweet_video"
          :: ((List.range 3).map UploadReq.appendCmd
            ++ [UploadReq.finalizeCmd] ++ List.replicate k UploadReq.statusCmd)) ∧
    uploadMedia uploadEnvFail 12582912 "video/mp4"
      = (UploadReq.initCmd 12582912 "video/mp4" "tweet_video"
          :: (List.range 2).map UploadReq.appendCmd,
         .error (.appendFailed 2 3)) := by
  have hchunks : (12582912 + CHUNK_SIZE - 1) / CHUNK_SIZE = 3 := by decide
  constructor
  · have h := (upload_video_ordering uploadEnvOk 12582912 initRespEx "12345"
      rfl rfl (by decide)).1 (fun i => rfl)
    rw [hchunks] at h
    exact h
  · have h := (upload_video_ordering uploadEnvFail 12582912 initRespEx "12345"
      rfl rfl (by decide)).2 1 (by rw [hchunks]; omega)
      (fun i hi => by simp [uploadEnvFail]; omega) (by decide)
    rw [hchunks] at h
    exact h

/-- C8: for an image of any size, uploadMedia sends the whole payload as a
single APPEND chunk (segment 0) and, after a successful FINALIZE, returns
the finalize response immediately, issuing no STATUS poll — the
no-processing-descriptor completion branch is taken for images regardless
of the finalize response's contents. -/
theorem upload_image_no_poll (env : UploadEnv) (n : Nat)
    (ir : MediaUploadResponse) (mid : String) (fr : MediaUploadResponse)
    (hi : env.initResp = some ir) (hm : ir.media_id_string = some mid) (hne : mid ≠ "")
    (happ : env.appendOk 0 = true) (hfr : env.finalizeResp = some fr) :
    uploadMedia env n "image/jpeg"
      = ([UploadReq.initCmd n "image/jpeg" "tweet_image", UploadReq.appendCmd 0,
          UploadReq.finalizeCmd], .ok fr) := by
  have hap : appendPhase env.appendOk 0 1 = ([UploadReq.appendCmd 0], none) := by
    rw [appendPhase, happ]
    simp [appendPhase]
  have hvb : ("image/jpeg" == "video/mp4") = false := by decide
  have hstep := uploadMedia_init_ok env n "image/jpeg" ir mid hi hm hne
  rw [hvb] at hstep
  simp at hstep
  rw [hstep, appendAndFinish_appends_ok env false _ [UploadReq.appendCmd 0] 1 hap,
    finalizePhase_not_video env _ fr hfr]
  rfl

theorem upload_image_no_poll_witness :
    uploadMedia uploadEnvOk 10485760 "image/jpeg"
      = ([UploadReq.initCmd 10485760 "image/jpeg" "tweet_image", UploadReq.appendCmd 0,
          UploadReq.finalizeCmd], .ok finalizeRespEx) :=
  upload_image_no_poll uploadEnvOk 10485760 initRespEx "12345" finalizeRespEx
    rfl rfl (by decide) rfl rfl

/-- One entry of a threaded-conversation timeline: an item entry wrapping
one tweet, a module entry wrapping a list of tweets (self-thread /
conversation module), or a cursor marker. -/
inductive TimelineEntry
  | item (t : TweetM)
  | moduleEntry (ts : List TweetM)
  | cursorEntry (value : String)
deriving DecidableEq

/-- A threaded-conversation response (ThreadedConversation in
timeline-v2.ts): the ordered list of its entries. -/
structure ThreadedConversation where
  entries : List TimelineEntry
deriving DecidableEq

/-- Modelled from the spec: parseThreadedConversation (timeline-v2.ts, not
under src/) flattens every entry of a threaded-conversation view into an
ordered list of tweets — an item entry yields its tweet, a module entry
yields its tweets in order, a cursor marker yields none. -/
def parseThreadedConversation (c : ThreadedConversation) : List TweetM :=
  c.entries.foldr
    (fun e acc =>
      match e with
      | .item t => t :: acc
      | .moduleEntry ts => ts ++ acc
      | .cursorEntry _ => acc) []

/-- A transport-level error as surfaced by requestApi (api.ts). -/
inductive ApiErr
  | transport (msg : String)
deriving DecidableEq

/-- Embedding of getTweet (tweets.ts in the unnamed source part, lines
598-620): the transport result of the tweet-detail request is the res
argument; a failed request propagates the error, an absent body yields
null, and otherwise the conversation is flattened and the tweet whose id
equals the focal id is selected, null when absent. -/
def getTweet (id : String) (res : Except ApiErr (Option ThreadedConversation)) :
    Except ApiErr (Option TweetM) :=
  match res with
  | .error e => .error e
  | .ok none => .ok none
  | .ok (some conv) =>
    .ok ((parseThreadedConversation conv).find? (fun t => t.id == some id))

/-- C9: for a threaded-conversation fetch that succeeds at the transport
level, getTweet returns a tweet of the flattened conversation whose id is
the focal id whenever it returns one, and when no flattened tweet carries
the focal id it returns null (ok none) rather than an error. -/
theorem getTweet_focal_not_found (id : String) (conv : ThreadedConversation) :
    (∀ t, getTweet id (.ok (some conv)) = .ok (some t) →
      t ∈ parseThreadedConversation conv ∧ t.id = some id) ∧
    ((∀ t ∈ parseThreadedConversation conv, t.id ≠ some id) →
      getTweet id (.ok (some conv)) = .ok none) := by
  constructor
  · intro t h
    rw [getTweet] at h
    have hfind : (parseThreadedConversation conv).find? (fun t => t.id == some id)
        = some t := by
      cases hf : (parseThreadedConversation conv).find? (fun t => t.id == some id) with
      | none => rw [hf] at h; simp at h
      | some t' => rw [hf] at h; simp at h; rw [h]
    constructor
    · exact List.mem_of_find?_eq_some hfind
    · have := List.find?_some hfind
      simpa using this
  · intro hnone
    rw [getTweet]
    have : (parseThreadedConversation conv).find? (fun t => t.id == some id) = none := by
      rw [List.find?_eq_none]
      intro t ht
      simpa using hnone t ht
    rw [this]

def convEx : ThreadedConversation :=
  { entries := [.item { id := some "2", text := none, isRetweet := none },
                .moduleEntry [{ id := some "3", text := none, isRetweet := none }],
                .cursorEntry "cur"] }

theorem getTweet_focal_not_found_witness :
    getTweet "99" (.ok (some convEx)) = .ok none :=
  (getTweet_focal_not_found "99" convEx).2 (by decide)

/-- Result of evaluating a query predicate in the host language: a plain
boolean, or a promise that will resolve to a boolean. A promise object is
always truthy before it is awaited. -/
inductive PredResult
  | sync (b : Bool)
  | promiseOf (b : Bool)
deriving DecidableEq

/-- Truthiness of a predicate result when tested without awaiting: a plain
boolean is its own truth value, a promise object is always truthy. -/
def truthyVal : PredResult → Bool
  | .sync b => b
  | .promiseOf _ => true

/-- Value of a predicate result after awaiting: awaiting a plain boolean
gives it back, awaiting a promise gives the resolved boolean. -/
def awaitedVal : PredResult → Bool
  | .sync b => b
  | .promiseOf b => b

/-- A field query against a tweet (the Partial of the Tweet interface):
each present field must equal the tweet's field. Restricted to the
embedded fields. -/
structure TweetFieldQuery where
  id : Option (Option String)
  text : Option (Option String)
  isRetweet : Option (Option Bool)

/-- Embedding of checkTweetMatches (tweets.ts in the unnamed source part,
lines 573-578): every key present in the options object must equal the
tweet's value at that key. -/
def checkTweetMatches (t : TweetM) (options : TweetFieldQuery) : Bool :=
  (match options.id with
   | none => true
   | some v => t.id == v) &&
  (match options.text with
   | none => true
   | some v => t.text == v) &&
  (match options.isRetweet with
   | none => true
   | some v => t.isRetweet == v)

/-- TweetQuery (tweets.ts): either a callback predicate or a partial tweet
of field constraints. -/
inductive TweetQueryM
  | byPred (f : TweetM → PredResult)
  | byFields (options : TweetFieldQuery)

/-- Embedding of getTweetWhere (tweets.ts in the unnamed source part,
lines 537-554): iterates the sequence and returns the first tweet whose
query evaluates truthy, with a callback result awaited before testing. -/
def getTweetWhere (tweets : List TweetM) (query : TweetQueryM) : Option TweetM :=
  match tweets with
  | [] => none
  | t :: rest =>
    match query with
    | .byPred f =>
      if awaitedVal (f t) then some t else getTweetWhere rest query
    | .byFields options =>
      if checkTweetMatches t options then some t else getTweetWhere rest query

/-- Embedding of getTweetsWhere (tweets.ts in the unnamed source part,
lines 556-571): iterates the sequence and keeps the tweets whose query
evaluates truthy, testing a callback's raw return value without awaiting
it. -/
def getTweetsWhere (tweets : List TweetM) (query : TweetQueryM) : List TweetM :=
  match tweets with
  | [] => []
  | t :: rest =>
    match query with
    | .byPred f =>
      if truthyVal (f t) then t :: getTweetsWhere rest query
      else getTweetsWhere rest query
    | .byFields options =>
      if checkTweetMatches t options then t :: getTweetsWhere rest query
      else getTweetsWhere rest query

/-- C10: getTweetWhere awaits a callback predicate's result before testing
it, while getTweetsWhere tests the raw return value; hence for a predicate
that returns a promise, getTweetsWhere keeps every tweet of the sequence
(a promise object is always truthy), even those the awaited predicate
rejects, while getTweetWhere returns the first tweet the awaited predicate
accepts — so the two operations disagree whenever some tweet fails the
awaited predicate. -/
theorem getTweetsWhere_async_predicate (tweets : List TweetM) (p : TweetM → Bool) :
    getTweetsWhere tweets (.byPred (fun t => .promiseOf (p t))) = tweets ∧
    getTweetWhere tweets (.byPred (fun t => .promiseOf (p t))) = tweets.find? p ∧
    ((∃ t ∈ tweets, p t = false) →
      getTweetsWhere tweets (.byPred (fun t => .promiseOf (p t))) ≠ tweets.filter p) := by
  have hall : ∀ ts : List TweetM,
      getTweetsWhere ts (.byPred (fun t => .promiseOf (p t))) = ts := by
    intro ts
    induction ts with
    | nil => rfl
    | cons t rest ih => simp [getTweetsWhere, truthyVal, ih]
  refine ⟨hall tweets, ?_, ?_⟩
  · induction tweets with
    | nil => rfl
    | cons t rest ih =>
      rw [getTweetWhere, List.find?]
      cases hp : p t with
      | true => simp [awaitedVal, hp]
      | false => simp [awaitedVal, hp, ih]
  · intro hex heq
    obtain ⟨t, ht, hpt⟩ := hex
    rw [hall tweets] at heq
    have hmem : t ∈ tweets.filter p := heq ▸ ht
    have hp := List.of_mem_filter hmem
    rw [hpt] at hp
    simp at hp

def tC : TweetM := { id := some "c", text := none, isRetweet := none }

theorem getTweetsWhere_async_predicate_witness :
    getTweetsWhere [tA, tC] (.byPred (fun t => .promiseOf (t.id == some "a"))) = [tA, tC] ∧
    getTweetsWhere [tA, tC] (.byPred (fun t => .promiseOf (t.id == some "a")))
      ≠ [tA, tC].filter (fun t => t.id == some "a") := by
  have h := getTweetsWhere_async_predicate [tA, tC] (fun t => t.id == some "a")
  exact ⟨h.1, h.2.2 ⟨tC, by simp, by decide⟩⟩
